import Mathlib

/-!
Verification of the WSLSnapIt MCP server (src/index.js) against its
natural-language specification.  The development shallowly embeds the
request-resolution, command-formatting, path-translation, filesystem-effect
and adaptive-compression logic of the `take_screenshot` handler as
executable Lean definitions, and settles the frozen claims C1..C10
against them.
-/

namespace WSLSnapIt

/-! ## String helpers

`String.replace`, `String.startsWith` and friends from core do not reduce
in the kernel, so the embedding works on the underlying character lists
with small structural functions.  All of them are executable.
-/

/-- Does the character list `pat` occur (contiguously) anywhere in `l`?
Used to model JavaScript `String.prototype.includes` and the substring
part of PowerShell `-like "*pat*"` matching. -/
def occursIn (pat : List Char) : List Char → Bool
  | [] => pat.isEmpty
  | c :: rest => List.isPrefixOf pat (c :: rest) || occursIn pat rest

/-- JavaScript `hay.includes(pat)`. -/
def strContains (hay pat : String) : Bool := occursIn pat.data hay.data

/-- JavaScript `s.startsWith(pre)`. -/
def strStartsWith (s pre : String) : Bool := List.isPrefixOf pre.data s.data

/-- JavaScript `s.slice(n)` (drop the first `n` characters; the sources
only ever slice inside the ASCII range, so code units and characters
coincide). -/
def strDrop (s : String) (n : Nat) : String := String.mk (s.data.drop n)

/-- Lower-case every character (ASCII case folding suffices for the
strings the server compares). -/
def lowerData (l : List Char) : List Char := l.map Char.toLower

/-- PowerShell `$hay -like "*pat*"` for a pattern `pat` that contains no
wildcard metacharacters: case-insensitive substring match.  (PowerShell
`-like` additionally interprets `*`, `?` and `[..]` inside `pat`; the
claims are only about plain search terms, which is what this models.) -/
def likeSubstr (hay pat : String) : Bool :=
  occursIn (lowerData pat.data) (lowerData hay.data)

/-- Apply `f` to every character of a string. -/
def mapStr (f : Char → Char) (s : String) : String := String.mk (s.data.map f)

/-- JavaScript `s.replace(/\//g, '\\')`. -/
def slashesToBackslashes (s : String) : String :=
  mapStr (fun c => if c = '/' then '\\' else c) s

/-- JavaScript `s.replace(/\\/g, '/')`. -/
def backslashesToSlashes (s : String) : String :=
  mapStr (fun c => if c = '\\' then '/' else c) s

/-- Double every occurrence of the character `t` in a list. -/
def dupChar (t : Char) : List Char → List Char
  | [] => []
  | c :: rest => if c = t then c :: c :: dupChar t rest else c :: dupChar t rest

/-- Source `src/index.js:180-181`: `(windowTitle || '').replace(/"/g, '""')` —
the only escaping applied to the window-title / process-name search
terms before interpolation into a double-quoted PowerShell string. -/
def escapeDoubleQuotes (s : String) : String := String.mk (dupChar '"' s.data)

/-- Source `src/index.js:161`: `windowsPath.replace(/\\/g, '\\\\')` — the only
escaping applied to the destination path before interpolation into a
single-quoted PowerShell string. -/
def escapeBackslashes (s : String) : String := String.mk (dupChar '\\' s.data)

/-- Node `path.join(a, b)` for segments that are already clean (no
trailing separators, no `.`/`..` components) — the only shapes the
handler produces. -/
def pathJoin (a b : String) : String := a ++ "/" ++ b

/-- JavaScript truthiness of an optional string parameter: absent and
`""` are both falsy (`if (folder)`, `if (windowTitle)`, ...). -/
def truthy : Option String → Bool
  | none => false
  | some s => !(s == "")

/-- The string value of an optional parameter (JS `undefined` behaves as
the default `''` wherever the handler reads it after a truthiness
guard). -/
def optVal : Option String → String
  | none => ""
  | some s => s

/-! ## Target resolver (window search, `src/index.js:290-371`)

The PowerShell generated by `searchLogic` enumerates visible windows,
filters them with `-like`, and then selects by `windowIndex`.  The
selection logic is identical in the `windowTitle` and `processName`
branches, so it is embedded once, parameterized by the match predicate.
-/

/-- One enumerated visible window (`WindowInfo` in the generated C#). -/
structure WindowInfo where
  title : String
  processName : String
  handle : Nat
  deriving DecidableEq, Repr, Inhabited

/-- Which kind of search produced a not-found outcome. -/
inductive SearchKind where
  | window
  | process
  deriving DecidableEq, Repr

/-- Outcome of the window-search portion of the generated script:
a selected window (`$foundWindow`), a `WINDOW_NOT_FOUND` /
`PROCESS_NOT_FOUND` sentinel, or a `MULTIPLE_WINDOWS_FOUND`
disambiguation sentinel carrying the matches in filtered order. -/
inductive SearchOutcome where
  | selected (w : WindowInfo)
  | notFound (kind : SearchKind) (term : String)
  | ambiguous (term : String) (cands : List WindowInfo)
  deriving DecidableEq, Repr

/-- Source `src/index.js:292-329` / `331-370` (common selection logic): filter
`$allWindows` by `matchPred`; `0` matches → not-found sentinel; `>1`
matches → select `$matchingWindows[$windowIndex - 1]` when
`$windowIndexProvided` and `1 ≤ windowIndex ≤ count`, else the
disambiguation sentinel; exactly `1` match → select it. -/
def resolveSearch (matchPred : WindowInfo → Bool) (kind : SearchKind) (term : String)
    (allWindows : List WindowInfo) (idxProvided : Bool) (idx : Int) : SearchOutcome :=
  let ms := allWindows.filter matchPred
  if ms.length = 0 then
    SearchOutcome.notFound kind term
  else if 1 < ms.length then
    if idxProvided = true ∧ 1 ≤ idx ∧ idx ≤ (ms.length : Int) then
      SearchOutcome.selected (ms.getD (idx - 1).toNat default)
    else
      SearchOutcome.ambiguous term ms
  else
    SearchOutcome.selected (ms.getD 0 default)

/-- Source `src/index.js:334`: `"name".Replace(".exe", "")` — .NET
`String.Replace` removes every (case-sensitive, left-to-right,
non-overlapping) occurrence of `".exe"`, not only a trailing one. -/
def stripExeAll : List Char → List Char
  | '.' :: 'e' :: 'x' :: 'e' :: rest => stripExeAll rest
  | c :: rest => c :: stripExeAll rest
  | [] => []

/-- Does `".exe"` occur in the list? -/
def hasExe : List Char → Bool
  | '.' :: 'e' :: 'x' :: 'e' :: _ => true
  | _ :: rest => hasExe rest
  | [] => false

/-- The `$searchProcess` value computed by the generated script for a
supplied process name (`src/index.js:334`). -/
def searchProcessOf (name : String) : String := String.mk (stripExeAll name.data)

/-- Modelled from the spec: "process-name match strips a *trailing*
executable-file suffix before comparing" — the spec-side stripping
function, for comparison with the code's `searchProcessOf`. -/
def specTrailingStripExe (s : String) : String :=
  if List.isSuffixOf ".exe".data s.data then
    String.mk (s.data.take (s.data.length - 4))
  else s

/-- Title match: `$win.Title -like "*term*"` (`src/index.js:296`). -/
def titleMatches (term : String) (w : WindowInfo) : Bool := likeSubstr w.title term

/-- Process match: `$win.ProcessName -like "*$searchProcess*"`
(`src/index.js:337`). -/
def procMatches (searchProcess : String) (w : WindowInfo) : Bool :=
  likeSubstr w.processName searchProcess

/-- The `windowTitle` search branch (`src/index.js:291-329`). -/
def resolveByTitle (term : String) (allWindows : List WindowInfo)
    (idxProvided : Bool) (idx : Int) : SearchOutcome :=
  resolveSearch (titleMatches term) SearchKind.window term allWindows idxProvided idx

/-- The `processName` search branch (`src/index.js:330-370`), including
the `.exe` stripping applied to the supplied name. -/
def resolveByProcess (name : String) (allWindows : List WindowInfo)
    (idxProvided : Bool) (idx : Int) : SearchOutcome :=
  resolveSearch (procMatches (searchProcessOf name)) SearchKind.process name
    allWindows idxProvided idx

/-- Branch selection of the window-target path (`src/index.js:175`,
`290-331`): `if (windowTitle) … else if (processName) …`; `none` when
neither parameter is truthy (the handler then takes a monitor branch
and performs no window resolution). -/
def resolveRequest (windowTitle processName : Option String)
    (allWindows : List WindowInfo) (idxProvided : Bool) (idx : Int) :
    Option SearchOutcome :=
  if truthy windowTitle then
    some (resolveByTitle (optVal windowTitle) allWindows idxProvided idx)
  else if truthy processName then
    some (resolveByProcess (optVal processName) allWindows idxProvided idx)
  else none

/-! ## Monitor selection (`src/index.js:449-469`) -/

/-- One entry of `[System.Windows.Forms.Screen]::AllScreens.Bounds`. -/
structure ScreenRect where
  x : Int
  y : Int
  width : Nat
  height : Nat
  deriving DecidableEq, Repr, Inhabited

instance : IsTotal ScreenRect (fun a b => a.x ≤ b.x) :=
  ⟨fun a b => Int.le_total a.x b.x⟩

instance : IsTrans ScreenRect (fun a b => a.x ≤ b.x) :=
  ⟨fun _ _ _ hab hbc => le_trans hab hbc⟩

/-- Source `src/index.js:453`: `$sortedScreens = $screens | Sort-Object {
$_.Bounds.X }` — a stable sort ascending by horizontal origin, embedded
as insertion sort (also stable). -/
def sortScreens (screens : List ScreenRect) : List ScreenRect :=
  List.insertionSort (fun a b => a.x ≤ b.x) screens

/-- The error text of `src/index.js:463`: `throw "Monitor ${monitor} not
found. Available monitors: 1 to $($sortedScreens.Count)"`. -/
def invalidMonitorMsg (n count : Nat) : String :=
  "Monitor " ++ toString n ++ " not found. Available monitors: 1 to " ++ toString count

/-- Source `src/index.js:458-465`, the numeric-monitor branch (the `monitor`
string has already matched `^\d+$`, so `n` is a natural number):
`$index = [int] monitor - 1`; in-range indexes select
`$sortedScreens[$index]`, out-of-range ones throw. -/
def selectMonitor (screens : List ScreenRect) (n : Nat) : Except String ScreenRect :=
  let sortedScreens := sortScreens screens
  let index : Int := (n : Int) - 1
  if 0 ≤ index ∧ index < (sortedScreens.length : Int) then
    Except.ok (sortedScreens.getD index.toNat default)
  else
    Except.error (invalidMonitorMsg n sortedScreens.length)

/-! ## Command formatter (generated PowerShell fragments)

The fragments below are the text the handler interpolates caller data
into.  Literal `{` / `}` of the PowerShell source are written `\x7b` /
`\x7d` and literal `'` is written `\x27`; otherwise the text follows
`src/index.js` verbatim.
-/

/-- PowerShell rendering of the `windowIndexProvided` flag
(`src/index.js:177`). -/
def psBool (b : Bool) : String := if b then "$true" else "$false"

/-- The `searchLogic` fragment of the `windowTitle` branch
(`src/index.js:292-329`), with `escT` standing for the already-escaped
title, `psProv` for `$true`/`$false` and `idx` for the interpolated
`windowIndex` number. -/
def titleSearchFragment (escT psProv : String) (idx : Int) : String :=
  "\n          if (\"" ++
  (escT ++
  ("\" -ne \"\") \x7b\n" ++
  "            $matchingWindows = @()\n" ++
  "            foreach ($win in $allWindows) \x7b\n" ++
  "              if ($win.Title -like \"*" ++ escT ++ "*\") \x7b\n" ++
  "                $matchingWindows += $win\n" ++
  "              \x7d\n" ++
  "            \x7d\n" ++
  "            \n" ++
  "            if ($matchingWindows.Count -eq 0) \x7b\n" ++
  "              [Console]::Error.WriteLine(\"WINDOW_NOT_FOUND:" ++ escT ++ "\")\n" ++
  "              exit 1\n" ++
  "            \x7d elseif ($matchingWindows.Count -gt 1) \x7b\n" ++
  "              # Multiple windows found - check if windowIndex was explicitly provided\n" ++
  "              $windowIndexProvided = " ++ psProv ++ "\n" ++
  "              $windowIndex = " ++ toString idx ++ "\n" ++
  "              if ($windowIndexProvided -eq $true -and $windowIndex -ge 1 -and $windowIndex -le $matchingWindows.Count) \x7b\n" ++
  "                # Valid windowIndex explicitly provided, select that window\n" ++
  "                $foundWindow = $matchingWindows[$windowIndex - 1]\n" ++
  "                $hwnd = $foundWindow.Handle\n" ++
  "              \x7d else \x7b\n" ++
  "                # No windowIndex provided or invalid, show disambiguation list\n" ++
  "                $windowList = \"\"\n" ++
  "                for ($i = 0; $i -lt $matchingWindows.Count; $i++) \x7b\n" ++
  "                  $win = $matchingWindows[$i]\n" ++
  "                  $windowList += \"$(($i + 1)). $($win.Title) ($($win.ProcessName).exe)\"\n" ++
  "                  if ($i -lt $matchingWindows.Count - 1) \x7b $windowList += \"`n\" \x7d\n" ++
  "                \x7d\n" ++
  "                $windowList += \"`n$(($matchingWindows.Count + 1)). Cancel capture\"\n" ++
  "                [Console]::Error.WriteLine(\"MULTIPLE_WINDOWS_FOUND:" ++ escT ++ ":$windowList\")\n" ++
  "                exit 1\n" ++
  "              \x7d\n" ++
  "            \x7d else \x7b\n" ++
  "              # Single window found\n" ++
  "              $foundWindow = $matchingWindows[0]\n" ++
  "              $hwnd = $foundWindow.Handle\n" ++
  "            \x7d\n" ++
  "          \x7d"))

/-- The `searchLogic` fragment of the `processName` branch
(`src/index.js:331-370`). -/
def processSearchFragment (escP psProv : String) (idx : Int) : String :=
  "\n          if (\"" ++ escP ++ "\" -ne \"\") \x7b\n" ++
  "            # Strip .exe if provided\n" ++
  "            $searchProcess = \"" ++ escP ++ "\".Replace(\".exe\", \"\")\n" ++
  "            $matchingWindows = @()\n" ++
  "            foreach ($win in $allWindows) \x7b\n" ++
  "              if ($win.ProcessName -like \"*$searchProcess*\") \x7b\n" ++
  "                $matchingWindows += $win\n" ++
  "              \x7d\n" ++
  "            \x7d\n" ++
  "            \n" ++
  "            if ($matchingWindows.Count -eq 0) \x7b\n" ++
  "              [Console]::Error.WriteLine(\"PROCESS_NOT_FOUND:" ++ escP ++ "\")\n" ++
  "              exit 1\n" ++
  "            \x7d elseif ($matchingWindows.Count -gt 1) \x7b\n" ++
  "              # Multiple windows found - check if windowIndex was explicitly provided\n" ++
  "              $windowIndexProvided = " ++ psProv ++ "\n" ++
  "              $windowIndex = " ++ toString idx ++ "\n" ++
  "              if ($windowIndexProvided -eq $true -and $windowIndex -ge 1 -and $windowIndex -le $matchingWindows.Count) \x7b\n" ++
  "                # Valid windowIndex explicitly provided, select that window\n" ++
  "                $foundWindow = $matchingWindows[$windowIndex - 1]\n" ++
  "                $hwnd = $foundWindow.Handle\n" ++
  "              \x7d else \x7b\n" ++
  "                # No windowIndex provided or invalid, show disambiguation list\n" ++
  "                $windowList = \"\"\n" ++
  "                for ($i = 0; $i -lt $matchingWindows.Count; $i++) \x7b\n" ++
  "                  $win = $matchingWindows[$i]\n" ++
  "                  $windowList += \"$(($i + 1)). $($win.Title) ($($win.ProcessName).exe)\"\n" ++
  "                  if ($i -lt $matchingWindows.Count - 1) \x7b $windowList += \"`n\" \x7d\n" ++
  "                \x7d\n" ++
  "                $windowList += \"`n$(($matchingWindows.Count + 1)). Cancel capture\"\n" ++
  "                [Console]::Error.WriteLine(\"MULTIPLE_WINDOWS_FOUND:" ++ escP ++ ":$windowList\")\n" ++
  "                exit 1\n" ++
  "              \x7d\n" ++
  "            \x7d else \x7b\n" ++
  "              # Single window found\n" ++
  "              $foundWindow = $matchingWindows[0]\n" ++
  "              $hwnd = $foundWindow.Handle\n" ++
  "            \x7d\n" ++
  "          \x7d"

/-- Source `src/index.js:290-371`: the `searchLogic` string, `''` when neither
window parameter is truthy, else built from the branch taken (title
wins over process) with the quote-doubled search term, the
`windowIndexProvided` flag and the raw `windowIndex` interpolated. -/
def searchLogicFor (windowTitle processName : Option String)
    (idxProvided : Bool) (idx : Int) : String :=
  if truthy windowTitle then
    titleSearchFragment (escapeDoubleQuotes (optVal windowTitle)) (psBool idxProvided) idx
  else if truthy processName then
    processSearchFragment (escapeDoubleQuotes (optVal processName)) (psBool idxProvided) idx
  else ""

/-- The monitor-selection portion of the specific-monitor script
(`src/index.js:456-468`): the caller's `monitor` value is interpolated
*without any escaping* into single-quoted PowerShell strings and into
the `throw` message. -/
def monitorSelectFragment (monitor : String) : String :=
  "          if (\x27" ++
  (monitor ++
  ("\x27 -eq \x27primary\x27) \x7b\n" ++
  "            $targetScreen = [System.Windows.Forms.Screen]::PrimaryScreen\n" ++
  "          \x7d elseif (\x27" ++ monitor ++ "\x27 -match \x27^\\d+$\x27) \x7b\n" ++
  "            $index = [int]\x27" ++ monitor ++ "\x27 - 1\n" ++
  "            if ($index -ge 0 -and $index -lt $sortedScreens.Count) \x7b\n" ++
  "              $targetScreen = $sortedScreens[$index]\n" ++
  "            \x7d else \x7b\n" ++
  "              throw \"Monitor " ++ monitor ++ " not found. Available monitors: 1 to $($sortedScreens.Count)\"\n" ++
  "            \x7d\n" ++
  "          \x7d"))

/-- The File-mode `captureCode` (`src/index.js:170-173`): the
backslash-doubled destination path sits in a single-quoted PowerShell
string. -/
def fileSaveFragment (windowsPathEsc : String) : String :=
  "# Save to file\n" ++
  "          $bitmap.Save(\x27" ++ windowsPathEsc ++ "\x27, [System.Drawing.Imaging.ImageFormat]::Png)\n" ++
  "          $bitmap.Dispose()\n" ++
  "          $graphics.Dispose()"

/-! ## Destination-path translation and filesystem effects
(`src/index.js:116-154`, `671-692`) -/

/-- Node `path.resolve` restricted to the shapes the handler feeds it:
an absolute path resolves to itself, a relative one against the current
working directory.  (`.`/`..` normalization never arises in the claims
and is not modelled.) -/
def pathResolve (cwd p : String) : String :=
  if strStartsWith p "/" then p else pathJoin cwd p

/-- Is `c` an ASCII letter (the `[a-z]` group of the `/^\/mnt\/([a-z])\//i`
regex)? -/
def isAsciiLetter (c : Char) : Bool :=
  (('a' ≤ c) && (c ≤ 'z')) || (('A' ≤ c) && (c ≤ 'Z'))

/-- JavaScript `s.replace(/^\/mnt\/([a-z])\//i, (m, d) =>
d.toUpperCase() + ':\\')` for a lower-case `/mnt/` spelling (the regex
is case-insensitive; the handler only ever sees the canonical
lower-case WSL mount prefix). -/
def mntToDrive (s : String) : String :=
  match s.data with
  | '/' :: 'm' :: 'n' :: 't' :: '/' :: d :: '/' :: rest =>
    if isAsciiLetter d then String.mk (d.toUpper :: ':' :: '\\' :: rest) else s
  | _ => s

/-- JavaScript `folder.charAt(5).toUpperCase()` (`src/index.js:125`),
`''` when the string is too short. -/
def driveCharOf (folder : String) : String :=
  match folder.data.drop 5 with
  | d :: _ => String.mk [d.toUpper]
  | [] => ""

/-- Source `src/index.js:120-144`: the `windowsFolder` conversion of a truthy
`folder` argument — `/mnt/<d>/...` becomes `<D>:\...`, other absolute
paths are resolved then converted, relative paths are resolved against
the working directory, and paths already containing `:\` pass through. -/
def windowsFolderOf (cwd folder : String) : String :=
  if strStartsWith folder "/mnt/" then
    driveCharOf folder ++ ":\\" ++ slashesToBackslashes (strDrop folder 7)
  else if strStartsWith folder "/" then
    slashesToBackslashes (mntToDrive (pathResolve cwd folder))
  else if strContains folder ":\\" = false then
    slashesToBackslashes (mntToDrive (pathResolve cwd folder))
  else folder

/-- Source `src/index.js:151-154`: `windowsPath = customFolder ||
path.join(cwd, 'screenshots', filename) …` — the path handed to the
bridge's `$bitmap.Save` in File mode.  Note that in the custom-folder
case the filename is *not* joined. -/
def windowsPathOf (cwd : String) (folder : Option String) (filename : String) : String :=
  let customFolder := if truthy folder then windowsFolderOf cwd (optVal folder) else ""
  if customFolder == "" then
    slashesToBackslashes (mntToDrive (pathJoin (pathJoin cwd "screenshots") filename))
  else customFolder

/-- Source `src/index.js:143,147`: `screenshotsDir` — the original folder
string when one was supplied, else the default screenshots directory. -/
def screenshotsDirOf (cwd : String) (folder : Option String) : String :=
  if truthy folder then optVal folder else pathJoin cwd "screenshots"

/-- Source `src/index.js:676-683`: the path shown in the File-mode success
message. -/
def successPathOf (cwd : String) (folder : Option String) (filename : String) : String :=
  if truthy folder then
    backslashesToSlashes (pathJoin (windowsFolderOf cwd (optVal folder)) filename)
  else "screenshots/" ++ filename

/-- A filesystem operation performed while handling one
`take_screenshot` request. -/
inductive FsOp where
  | mkdirRecursive (p : String)
  | writeFile (p : String)
  | accessCheck (p : String)
  deriving DecidableEq, Repr

/-- The filesystem operations of one `take_screenshot` request, in
order: `fs.mkdir(screenshotsDir, { recursive: true })` when no truthy
`folder` was supplied (`src/index.js:145-149`, unconditional on
`returnDirect`); then, in File mode only, the bridge's
`$bitmap.Save(windowsPath)` and the handler's read-only
`fs.access(path.join(screenshotsDir, filename))`
(`src/index.js:162-173`, `671-673`).  Direct mode sends the bitmap
back as base64 and performs no save. -/
def takeScreenshotFsOps (cwd : String) (folder : Option String)
    (filename : String) (returnDirect : Bool) : List FsOp :=
  (if truthy folder then [] else [FsOp.mkdirRecursive (pathJoin cwd "screenshots")]) ++
  (if returnDirect then []
   else [FsOp.writeFile (windowsPathOf cwd folder filename),
         FsOp.accessCheck (pathJoin (screenshotsDirOf cwd folder) filename)])

/-- Is the operation a filesystem *modification* (a write or a
directory creation, as opposed to the read-only access check)? -/
def FsOp.isModification : FsOp → Bool
  | FsOp.mkdirRecursive _ => true
  | FsOp.writeFile _ => true
  | FsOp.accessCheck _ => false

/-! ## Image compressor (`src/index.js:586-627`)

The pipeline is embedded over an abstract encoder
`enc : Option Nat → Nat → Nat` giving the JPEG byte size produced from
the *original* decoded bitmap, optionally resized to the given width
(`sharp(pngBuffer).resize({width: w})`), at the given quality.  Every
encode the pipeline performs is recorded in a log.
-/

/-- Which statement of the pipeline produced an encode. -/
inductive Stage where
  | firstEncode
  | qualityStep
  | resize1280
  | resize800
  deriving DecidableEq, Repr

/-- One recorded `processedImage.jpeg({quality: q}).toBuffer()` call:
the resize width applied to the original bitmap (none = unresized) and
the quality used. -/
structure EncodeOp where
  resizeWidth : Option Nat
  q : Nat
  stage : Stage
  deriving DecidableEq, Repr

/-- Source `src/index.js:588`: the 950 KiB byte budget. -/
def maxSizeBytes : Nat := 950 * 1024

/-- Source `src/index.js:606-609`: `while (finalBuffer.length > maxSizeBytes &&
finalQuality > 20) { finalQuality -= 10; finalBuffer = … }`.  The
`fuel` argument only bounds the recursion; it is always called with
`fuel = q`, which never truncates the loop because each iteration
requires `q > 20` and lowers `q` by 10 while spending one unit of
fuel. -/
def qualityLoop (enc : Option Nat → Nat → Nat) (rw : Option Nat) :
    Nat → Nat → Nat → List EncodeOp → Nat × Nat × List EncodeOp
  | 0, q, buf, log => (q, buf, log)
  | fuel + 1, q, buf, log =>
    if maxSizeBytes < buf ∧ 20 < q then
      qualityLoop enc rw fuel (q - 10) (enc rw (q - 10))
        (log ++ [⟨rw, q - 10, Stage.qualityStep⟩])
    else (q, buf, log)

/-- Result of the compression pipeline: final byte size, reported
quality, the `wasResized` flag, the stage whose encode is returned, and
the log of all encodes performed. -/
structure CompressOut where
  size : Nat
  finalQuality : Nat
  wasResized : Bool
  stage : Stage
  log : List EncodeOp
  deriving DecidableEq, Repr

/-- The pipeline after the initial resize decision (`src/index.js:602-624`):
`rw` is the width 1920 resize when the source was wider than 1920, else
no resize, and `resized0` the `wasResized` flag so far. -/
def compressCore (enc : Option Nat → Nat → Nat) (rw : Option Nat)
    (resized0 : Bool) (q0 : Nat) : CompressOut :=
  let buf0 := enc rw q0
  let r := qualityLoop enc rw q0 q0 buf0 [⟨rw, q0, Stage.firstEncode⟩]
  let q1 := r.1
  let buf1 := r.2.1
  let log1 := r.2.2
  if maxSizeBytes < buf1 then
    let buf2 := enc (some 1280) 60
    if maxSizeBytes < buf2 then
      { size := enc (some 800) 50, finalQuality := 50, wasResized := true,
        stage := Stage.resize800,
        log := log1 ++ [⟨some 1280, 60, Stage.resize1280⟩, ⟨some 800, 50, Stage.resize800⟩] }
    else
      { size := buf2, finalQuality := 60, wasResized := true,
        stage := Stage.resize1280,
        log := log1 ++ [⟨some 1280, 60, Stage.resize1280⟩] }
  else
    { size := buf1, finalQuality := q1, wasResized := resized0,
      stage := if log1.length ≤ 1 then Stage.firstEncode else Stage.qualityStep,
      log := log1 }

/-- Source `src/index.js:588-624`, the Direct-mode compression pipeline:
resize to width 1920 when the source is wider; encode at the requested
quality; lower quality by 10 while over budget and above 20; if still
over budget re-encode the original at width 1280 / quality 60; if still
over budget re-encode the original at width 800 / quality 50 and return
that unconditionally. -/
def compressPipeline (enc : Option Nat → Nat → Nat) (width q0 : Nat) : CompressOut :=
  compressCore enc (if 1920 < width then some 1920 else none) (decide (1920 < width)) q0

/-! ## Lemmas about the quality-reduction loop -/

/-- The loop performs at most `k` encodes when the starting quality is
at most `20 + 10k` (each iteration requires quality `> 20` and lowers
it by 10). -/
theorem qualityLoop_length_le (enc : Option Nat → Nat → Nat) (rw : Option Nat) :
    ∀ (fuel k q buf : Nat) (log : List EncodeOp), q ≤ 20 + 10 * k →
      (qualityLoop enc rw fuel q buf log).2.2.length ≤ log.length + k := by
  intro fuel
  induction fuel with
  | zero => intro k q buf log _; simp [qualityLoop]
  | succ n ih =>
    intro k q buf log h
    rw [qualityLoop]
    split
    · rename_i hcond
      have hk : 1 ≤ k := by omega
      have hrec := ih (k - 1) (q - 10) (enc rw (q - 10))
        (log ++ [⟨rw, q - 10, Stage.qualityStep⟩]) (by omega)
      simp only [List.length_append, List.length_cons, List.length_nil] at hrec
      omega
    · simp

/-- Every encode the loop logs has quality at least 11 (the loop only
encodes after lowering a quality that was `> 20` by 10), and at least
20 when the starting quality is a multiple of 10. -/
theorem qualityLoop_floor (enc : Option Nat → Nat → Nat) (rw : Option Nat) (q0 : Nat) :
    ∀ (fuel q buf : Nat) (log : List EncodeOp), q % 10 = q0 % 10 →
      (∀ op ∈ log, op.stage = Stage.qualityStep → 11 ≤ op.q ∧ (10 ∣ q0 → 20 ≤ op.q)) →
      ∀ op ∈ (qualityLoop enc rw fuel q buf log).2.2, op.stage = Stage.qualityStep →
        11 ≤ op.q ∧ (10 ∣ q0 → 20 ≤ op.q) := by
  intro fuel
  induction fuel with
  | zero => intro q buf log _ hlog; simpa [qualityLoop] using hlog
  | succ n ih =>
    intro q buf log hmod hlog
    rw [qualityLoop]
    split
    · rename_i hcond
      refine ih (q - 10) (enc rw (q - 10)) _ (by omega) ?_
      intro op hop hstage
      rcases List.mem_append.mp hop with hin | hin
      · exact hlog op hin hstage
      · have : op = ⟨rw, q - 10, Stage.qualityStep⟩ := List.mem_singleton.mp hin
        subst this
        dsimp only
        exact ⟨by omega, fun hdvd => by omega⟩
    · exact hlog

/-- The loop either does nothing (returning its log and quality
unchanged) or returns a quality of at least 11. -/
theorem qualityLoop_result (enc : Option Nat → Nat → Nat) (rw : Option Nat) :
    ∀ (fuel q buf : Nat) (log : List EncodeOp),
      ((qualityLoop enc rw fuel q buf log).2.2 = log ∧
        (qualityLoop enc rw fuel q buf log).1 = q) ∨
      11 ≤ (qualityLoop enc rw fuel q buf log).1 := by
  intro fuel
  induction fuel with
  | zero => intro q buf log; left; simp [qualityLoop]
  | succ n ih =>
    intro q buf log
    rw [qualityLoop]
    split
    · rename_i hcond
      rcases ih (q - 10) (enc rw (q - 10)) (log ++ [⟨rw, q - 10, Stage.qualityStep⟩]) with
        ⟨_, hq⟩ | h11
      · right; rw [hq]; omega
      · right; exact h11
    · left; exact ⟨rfl, rfl⟩

/-- The budget disjunction for the pipeline core. -/
theorem compressCore_size (enc : Option Nat → Nat → Nat) (rw : Option Nat)
    (resized0 : Bool) (q0 : Nat) :
    (compressCore enc rw resized0 q0).size ≤ maxSizeBytes ∨
    ((compressCore enc rw resized0 q0).stage = Stage.resize800 ∧
     (compressCore enc rw resized0 q0).size = enc (some 800) 50 ∧
     (compressCore enc rw resized0 q0).finalQuality = 50) := by
  unfold compressCore
  dsimp only
  split
  · split
    · right; exact ⟨rfl, rfl, rfl⟩
    · rename_i h2; left; exact Nat.not_lt.mp h2
  · rename_i h1; left; exact Nat.not_lt.mp h1

/-- C1: for every Direct-mode request, the compressed result is at most
950 KiB, or it was produced by the final fallback stage — the original
bitmap resized to width 800 and encoded at quality 50 — whose output is
returned regardless of its size. -/
theorem C1_direct_size_budget (enc : Option Nat → Nat → Nat) (width q0 : Nat) :
    (compressPipeline enc width q0).size ≤ maxSizeBytes ∨
    ((compressPipeline enc width q0).stage = Stage.resize800 ∧
     (compressPipeline enc width q0).size = enc (some 800) 50 ∧
     (compressPipeline enc width q0).finalQuality = 50) :=
  compressCore_size enc _ _ q0

/-- C6 (counterexample): with requested quality 25 — inside the claim's
range `[20,100]` — and an encoder that never fits the budget, the
iterative quality-reduction stage performs an encode at quality 15,
below the claimed floor of 20. -/
theorem C6_counterexample :
    EncodeOp.mk (some 1920) 15 Stage.qualityStep ∈
      (compressPipeline (fun _ _ => maxSizeBytes + 1) 2000 25).log ∧
    (15 : Nat) < 20 := by decide

/-- The quality floor for the pipeline core. -/
theorem compressCore_floor (enc : Option Nat → Nat → Nat) (rw : Option Nat)
    (resized0 : Bool) (q0 : Nat) :
    (∀ op ∈ (compressCore enc rw resized0 q0).log, op.stage = Stage.qualityStep →
       11 ≤ op.q ∧ (10 ∣ q0 → 20 ≤ op.q)) ∧
    ((compressCore enc rw resized0 q0).stage = Stage.qualityStep →
       11 ≤ (compressCore enc rw resized0 q0).finalQuality) := by
  have hloop := qualityLoop_floor enc rw q0 q0 q0 (enc rw q0)
    [⟨rw, q0, Stage.firstEncode⟩]
    rfl
    (by intro op hop hstage
        have : op = ⟨rw, q0, Stage.firstEncode⟩ := List.mem_singleton.mp hop
        subst this
        simp at hstage)
  have hres := qualityLoop_result enc rw q0 q0 (enc rw q0)
    [⟨rw, q0, Stage.firstEncode⟩]
  unfold compressCore
  dsimp only
  constructor
  · intro op hop hstage
    split at hop
    · split at hop
      · rcases List.mem_append.mp hop with hin | hin
        · exact hloop op hin hstage
        · simp only [List.mem_cons, List.mem_singleton, List.not_mem_nil,
            or_false] at hin
          rcases hin with h | h
          · subst h; simp at hstage
          · subst h; simp at hstage
      · rcases List.mem_append.mp hop with hin | hin
        · exact hloop op hin hstage
        · have : op = ⟨some 1280, 60, Stage.resize1280⟩ := List.mem_singleton.mp hin
          subst this; simp at hstage
    · exact hloop op hop hstage
  · split
    · split
      · intro hstage; simp at hstage
      · intro hstage; simp at hstage
    · dsimp only
      split
      · intro hstage; simp at hstage
      · rename_i hlen
        intro hstage
        rcases hres with ⟨hlog, hq⟩ | h11
        · rw [hlog] at hlen; simp at hlen
        · exact h11

/-- C6 (amended): every encode performed by the iterative
quality-reduction stage uses a quality of at least 11 (it lowers a
quality that was above 20 by exactly 10), and at least 20 whenever the
requested quality is a multiple of 10 (e.g. the default 80); the final
reported quality, when produced by that stage, is at least 11. -/
theorem C6_quality_floor (enc : Option Nat → Nat → Nat) (width q0 : Nat) :
    (∀ op ∈ (compressPipeline enc width q0).log, op.stage = Stage.qualityStep →
       11 ≤ op.q ∧ (10 ∣ q0 → 20 ≤ op.q)) ∧
    ((compressPipeline enc width q0).stage = Stage.qualityStep →
       11 ≤ (compressPipeline enc width q0).finalQuality) :=
  compressCore_floor enc _ _ q0

/-- C6 (witness): requested quality 80 on a 2000-px-wide bitmap whose
80-quality encode is over budget but whose 70-quality encode fits — the
loop logs an encode at quality 70 and reports it. -/
theorem C6_quality_floor_witness :
    (11 ≤ (70 : Nat) ∧ (10 ∣ 80 → 20 ≤ (70 : Nat))) ∧
    11 ≤ (compressPipeline (fun _ q => if q ≤ 70 then 0 else maxSizeBytes + 1) 2000 80).finalQuality :=
  ⟨(C6_quality_floor (fun _ q => if q ≤ 70 then 0 else maxSizeBytes + 1) 2000 80).1
      ⟨some 1920, 70, Stage.qualityStep⟩ (by decide) (by decide),
   (C6_quality_floor (fun _ q => if q ≤ 70 then 0 else maxSizeBytes + 1) 2000 80).2 (by decide)⟩

/-- C7 (counterexample): at requested quality 100 — inside the claim's
range `[1,100]` — with an encoder that never fits the budget, the
pipeline performs 11 encodes, more than the claimed bound of 9. -/
theorem C7_counterexample :
    (compressPipeline (fun _ _ => maxSizeBytes + 1) 100 100).log.length = 11 ∧
    ¬ ((compressPipeline (fun _ _ => maxSizeBytes + 1) 100 100).log.length ≤ 9) := by
  decide

/-- The encode-count bound for the pipeline core: the log holds at most
`k + 3` encodes when the requested quality is at most `20 + 10k`
(1 first encode, at most `k` loop encodes, at most 2 fallback
encodes). -/
theorem compressCore_length (enc : Option Nat → Nat → Nat) (rw : Option Nat)
    (resized0 : Bool) (q0 k : Nat) (h : q0 ≤ 20 + 10 * k) :
    (compressCore enc rw resized0 q0).log.length ≤ k + 3 := by
  have hk := qualityLoop_length_le enc rw q0 k q0 (enc rw q0)
    [⟨rw, q0, Stage.firstEncode⟩] h
  simp only [List.length_cons, List.length_nil] at hk
  unfold compressCore
  dsimp only
  split
  · split
    · simp only [List.length_append, List.length_cons, List.length_nil]; omega
    · simp only [List.length_append, List.length_cons, List.length_nil]; omega
  · dsimp only; omega

/-- C7 (amended): for every requested quality `q0 ≤ 100` the pipeline
terminates after at most 11 JPEG encode operations, and after at most 9
when `q0 ≤ 80` (which covers the default quality 80). -/
theorem C7_encode_count_bound (enc : Option Nat → Nat → Nat) (width q0 : Nat)
    (h : q0 ≤ 100) :
    (compressPipeline enc width q0).log.length ≤ 11 ∧
    (q0 ≤ 80 → (compressPipeline enc width q0).log.length ≤ 9) :=
  ⟨compressCore_length enc _ _ q0 8 (by omega),
   fun h80 => compressCore_length enc _ _ q0 6 (by omega)⟩

/-- C7 (witness): the amended bound instantiated at quality 80. -/
theorem C7_encode_count_bound_witness :
    (compressPipeline (fun _ _ => maxSizeBytes + 1) 100 80).log.length ≤ 11 ∧
    (compressPipeline (fun _ _ => maxSizeBytes + 1) 100 80).log.length ≤ 9 :=
  ⟨(C7_encode_count_bound (fun _ _ => maxSizeBytes + 1) 100 80 (by decide)).1,
   (C7_encode_count_bound (fun _ _ => maxSizeBytes + 1) 100 80 (by decide)).2 (by decide)⟩

/-! ## Window-search claims -/

/-- A concrete window population used by witnesses. -/
def exWindows : List WindowInfo :=
  [⟨"Alpha Chrome", "chrome", 1⟩, ⟨"Beta Chrome", "chrome", 2⟩, ⟨"Notepad", "notepad", 3⟩]

/-- C5: for every window query (title or process — the selection logic
is shared, so the match predicate is arbitrary) matching `N > 1`
windows, an explicitly supplied `windowIndex` with `1 ≤ idx ≤ N`
selects the `idx`-th match (1-based) in filtered enumeration order, and
the disambiguation outcome is never produced. -/
theorem C5_explicit_index_selects (matchPred : WindowInfo → Bool) (kind : SearchKind)
    (term : String) (allWindows : List WindowInfo) (idx : Int)
    (hN : 1 < (allWindows.filter matchPred).length)
    (h1 : 1 ≤ idx) (h2 : idx ≤ ((allWindows.filter matchPred).length : Int))
    (hb : (idx - 1).toNat < (allWindows.filter matchPred).length) :
    resolveSearch matchPred kind term allWindows true idx =
      SearchOutcome.selected ((allWindows.filter matchPred).get ⟨(idx - 1).toNat, hb⟩) ∧
    ∀ t ms, resolveSearch matchPred kind term allWindows true idx ≠
      SearchOutcome.ambiguous t ms := by
  unfold resolveSearch
  dsimp only
  rw [if_neg (by omega), if_pos hN, if_pos ⟨rfl, h1, h2⟩]
  constructor
  · have hgd : (allWindows.filter matchPred).getD (idx - 1).toNat default
        = (allWindows.filter matchPred).get ⟨(idx - 1).toNat, hb⟩ := by
      rw [List.getD_eq_getElem?_getD, List.getElem?_eq_getElem hb]
      rfl
    rw [hgd]
  · intro t ms hcontra
    exact SearchOutcome.noConfusion hcontra

/-- C5 (witness): two title matches, explicit index 2 selects the
second. -/
theorem C5_explicit_index_selects_witness :
    resolveSearch (titleMatches "chrome") SearchKind.window "chrome" exWindows true 2 =
      SearchOutcome.selected ((exWindows.filter (titleMatches "chrome")).get
        ⟨((2 : Int) - 1).toNat, by decide⟩) ∧
    ∀ t ms, resolveSearch (titleMatches "chrome") SearchKind.window "chrome" exWindows true 2 ≠
      SearchOutcome.ambiguous t ms :=
  C5_explicit_index_selects (titleMatches "chrome") SearchKind.window "chrome" exWindows 2
    (by decide) (by decide) (by decide) (by decide)

/-! ## Monitor-selection claim -/

/-- A concrete monitor population (raw enumeration order differs from
left-to-right order) used by the witness. -/
def exScreens : List ScreenRect :=
  [⟨100, 0, 800, 600⟩, ⟨-50, 0, 640, 480⟩, ⟨0, 0, 1024, 768⟩]

/-- C8: the enumerated monitors are sorted ascending by horizontal
origin, a numeric monitor value `n` with `1 ≤ n ≤ count` selects the
`n`-th element (1-based) of the sorted list, and an out-of-range `n`
fails with the error naming the valid range `1` to `count`. -/
theorem C8_monitor_selection (screens : List ScreenRect) (n : Nat) :
    List.Sorted (fun a b : ScreenRect => a.x ≤ b.x) (sortScreens screens) ∧
    (sortScreens screens).length = screens.length ∧
    (1 ≤ n ∧ n ≤ screens.length →
      selectMonitor screens n = Except.ok ((sortScreens screens).getD (n - 1) default)) ∧
    ((n < 1 ∨ screens.length < n) →
      selectMonitor screens n = Except.error (invalidMonitorMsg n screens.length)) := by
  have hsorted : List.Sorted (fun a b : ScreenRect => a.x ≤ b.x) (sortScreens screens) :=
    List.sorted_insertionSort _ screens
  have hlen : (sortScreens screens).length = screens.length :=
    (List.perm_insertionSort _ screens).length_eq
  refine ⟨hsorted, hlen, ?_, ?_⟩
  · rintro ⟨hn1, hn2⟩
    unfold selectMonitor
    dsimp only
    have hc : 0 ≤ (n : Int) - 1 ∧ (n : Int) - 1 < ((sortScreens screens).length : Int) := by
      constructor
      · omega
      · rw [hlen]; omega
    rw [if_pos hc]
    have : ((n : Int) - 1).toNat = n - 1 := by omega
    rw [this]
  · intro hout
    unfold selectMonitor
    dsimp only
    have hc : ¬ (0 ≤ (n : Int) - 1 ∧ (n : Int) - 1 < ((sortScreens screens).length : Int)) := by
      rintro ⟨hc1, hc2⟩
      rw [hlen] at hc2
      omega
    rw [if_neg hc, hlen]

/-- C8 (witness): three monitors enumerated out of visual order;
`monitor = 2` selects the middle one after sorting, `monitor = 5`
yields the range error. -/
theorem C8_monitor_selection_witness :
    List.Sorted (fun a b : ScreenRect => a.x ≤ b.x) (sortScreens exScreens) ∧
    selectMonitor exScreens 2 = Except.ok ((sortScreens exScreens).getD 1 default) ∧
    selectMonitor exScreens 5 = Except.error (invalidMonitorMsg 5 exScreens.length) :=
  ⟨(C8_monitor_selection exScreens 2).1,
   (C8_monitor_selection exScreens 2).2.2.1 (by decide),
   (C8_monitor_selection exScreens 5).2.2.2 (by decide)⟩

/-! ## The `.exe`-stripping claim -/

/-- The character list of `".exe"`. -/
def exeChars : List Char := ['.', 'e', 'x', 'e']

/-- A list with no `".exe"` occurrence is left unchanged by the
stripping pass. -/
theorem strip_of_no_exe (l : List Char) (h : hasExe l = false) : stripExeAll l = l := by
  induction l using stripExeAll.induct with
  | case1 rest ih => simp [hasExe] at h
  | case2 c rest h1 ih =>
    rw [stripExeAll]
    · rw [hasExe] at h
      · rw [ih h]
      · exact h1
    · exact h1
  | case3 => rfl

/-- Appending `".exe"` to a list with no `".exe"` occurrence and then
stripping returns the original list: a trailing suffix is removed
exactly (no occurrence of `".exe"` can span the append boundary,
because no proper prefix of `".exe"` is also one of its suffixes). -/
theorem strip_append_exe (l : List Char) (h : hasExe l = false) :
    stripExeAll (l ++ exeChars) = l := by
  induction l using stripExeAll.induct with
  | case1 rest ih => simp [hasExe] at h
  | case2 c rest h1 ih =>
    have h2 : ∀ (r : List Char), c = '.' → rest ++ exeChars = 'e' :: 'x' :: 'e' :: r → False := by
      intro r hc hr
      match rest, hr with
      | [], hr =>
        simp only [List.nil_append, exeChars, List.cons.injEq] at hr
        exact absurd hr.1 (by decide)
      | [a], hr =>
        simp only [List.cons_append, List.nil_append, exeChars, List.cons.injEq] at hr
        exact absurd hr.2.1 (by decide)
      | [a, b], hr =>
        simp only [List.cons_append, List.nil_append, exeChars, List.cons.injEq] at hr
        exact absurd hr.2.2.1 (by decide)
      | a :: b :: d :: r2, hr =>
        simp only [List.cons_append, List.cons.injEq] at hr
        exact h1 r2 hc (by rw [hr.1, hr.2.1, hr.2.2.1])
    have hstep : stripExeAll ((c :: rest) ++ exeChars) = c :: stripExeAll (rest ++ exeChars) := by
      rw [List.cons_append, stripExeAll]
      · exact h2
    have hrest : hasExe rest = false := by
      rw [hasExe] at h
      · exact h
      · exact h1
    rw [hstep, ih hrest]
  | case3 => simp [exeChars, stripExeAll]

/-- C9 (counterexample): for the supplied name `"note.exepad.exe"` the
code's search term is `"notepad"` — the inner `".exe"` was removed too —
while stripping only a trailing suffix would give `"note.exepad"`. -/
theorem C9_counterexample :
    searchProcessOf "note.exepad.exe" = "notepad" ∧
    specTrailingStripExe "note.exepad.exe" = "note.exepad" ∧
    searchProcessOf "note.exepad.exe" ≠ specTrailingStripExe "note.exepad.exe" := by
  decide

/-- C9 (amended): before the case-insensitive substring comparison,
*every* (case-sensitive, left-to-right, non-overlapping) occurrence of
`".exe"` in the supplied name is removed, not only a trailing one; in
particular a name whose only occurrence is a trailing suffix has
exactly that suffix stripped, and a name with no occurrence is left
unchanged. -/
theorem C9_strip_all_occurrences (s : String) (h : hasExe s.data = false) :
    searchProcessOf (s ++ ".exe") = s ∧ searchProcessOf s = s := by
  constructor
  · show String.mk (stripExeAll (s ++ ".exe").data) = s
    have hdata : (s ++ ".exe").data = s.data ++ exeChars := by
      cases s
      rfl
    rw [hdata, strip_append_exe s.data h]
  · show String.mk (stripExeAll s.data) = s
    rw [strip_of_no_exe s.data h]

/-- C9 (witness): `"notepad.exe"` becomes `"notepad"`, and `"notepad"`
stays `"notepad"`. -/
theorem C9_strip_all_occurrences_witness :
    searchProcessOf ("notepad" ++ ".exe") = "notepad" ∧ searchProcessOf "notepad" = "notepad" :=
  C9_strip_all_occurrences "notepad" (by decide)

/-! ## Branch-precedence claim (windowTitle vs processName) -/

/-- C10 (counterexample): a request supplying both parameters with
`windowTitle = ""` (the empty string is falsy in JavaScript) is
resolved with the process-name logic — the `processName` parameter *is*
consulted, and the generated command carries the process-search
fragment rather than only title-search logic. -/
theorem C10_counterexample :
    resolveRequest (some "") (some "notepad") [⟨"Untitled - Notepad", "notepad", 1⟩] false 1 ≠
      resolveRequest (some "") (some "chrome") [⟨"Untitled - Notepad", "notepad", 1⟩] false 1 ∧
    searchLogicFor (some "") (some "notepad") false 1 ≠
      searchLogicFor (some "") none false 1 := by
  constructor
  · decide
  · decide

/-- C10 (amended): for every request supplying a *non-empty*
`windowTitle` (and any `processName`), resolution uses the title only —
the outcome and the generated search fragment are those of the
title-only request, independent of `processName`; a supplied empty
`windowTitle` is falsy and falls through to the process branch. -/
theorem C10_title_precedence (t : String) (p : Option String) (provided : Bool)
    (idx : Int) (allWindows : List WindowInfo) (h : t ≠ "") :
    searchLogicFor (some t) p provided idx = searchLogicFor (some t) none provided idx ∧
    resolveRequest (some t) p allWindows provided idx =
      some (resolveByTitle t allWindows provided idx) := by
  have ht : truthy (some t) = true := by
    simp [truthy, h]
  constructor
  · simp only [searchLogicFor, ht, if_true]
  · simp only [resolveRequest, ht, if_true, optVal]

/-- C10 (witness): with title `"Chrome"` and process `"notepad"` both
supplied, command and outcome equal the title-only ones. -/
theorem C10_title_precedence_witness :
    searchLogicFor (some "Chrome") (some "notepad") true 2 =
      searchLogicFor (some "Chrome") none true 2 ∧
    resolveRequest (some "Chrome") (some "notepad") exWindows true 2 =
      some (resolveByTitle "Chrome" exWindows true 2) :=
  C10_title_precedence "Chrome" (some "notepad") true 2 exWindows (by decide)

/-! ## Filesystem-effect claims -/

/-- C4 (counterexample): a Direct-mode request with no `folder`
argument creates the default screenshots directory — a filesystem
modification — contradicting "Direct-mode never touches the
filesystem". -/
theorem C4_counterexample :
    takeScreenshotFsOps "/mnt/c/work" none "screenshot.png" true =
      [FsOp.mkdirRecursive (pathJoin "/mnt/c/work" "screenshots")] ∧
    (takeScreenshotFsOps "/mnt/c/work" none "screenshot.png" true).all
      (fun op => ! op.isModification) = false := by
  decide

/-- C4 (amended): a Direct-mode request never writes a file; when a
truthy `folder` argument is supplied it performs no filesystem
operation at all; but when `folder` is absent (or empty) the default
screenshots directory is created with a recursive mkdir even in Direct
mode. -/
theorem C4_direct_mode_fs (cwd : String) (folder : Option String) (filename : String) :
    (∀ p, FsOp.writeFile p ∉ takeScreenshotFsOps cwd folder filename true) ∧
    (truthy folder = true → takeScreenshotFsOps cwd folder filename true = []) ∧
    (truthy folder = false →
      takeScreenshotFsOps cwd folder filename true =
        [FsOp.mkdirRecursive (pathJoin cwd "screenshots")]) := by
  cases htr : truthy folder <;> simp [takeScreenshotFsOps, htr]

/-- C4 (witness): with a custom folder, Direct mode performs no
filesystem operation. -/
theorem C4_direct_mode_fs_witness :
    (∀ p, FsOp.writeFile p ∉ takeScreenshotFsOps "/root/proj" (some "/mnt/c/temp") "shot.png" true) ∧
    takeScreenshotFsOps "/root/proj" (some "/mnt/c/temp") "shot.png" true = [] :=
  ⟨(C4_direct_mode_fs "/root/proj" (some "/mnt/c/temp") "shot.png").1,
   (C4_direct_mode_fs "/root/proj" (some "/mnt/c/temp") "shot.png").2.1 (by decide)⟩

/-- C3: evaluation at the failing input `folder = "/mnt/c/temp"`,
`filename = "shot.png"`.  The path handed to the bridge's
`$bitmap.Save` is the converted folder `C:\temp` *without* the
filename, while the success message reports `C:/temp/shot.png` and the
verification step checks `/mnt/c/temp/shot.png` — the save path and
the reported path disagree. -/
theorem C3_custom_folder_path_mismatch :
    windowsPathOf "/root/proj" (some "/mnt/c/temp") "shot.png" = "C:\\temp" ∧
    successPathOf "/root/proj" (some "/mnt/c/temp") "shot.png" = "C:/temp/shot.png" ∧
    pathJoin (screenshotsDirOf "/root/proj" (some "/mnt/c/temp")) "shot.png" =
      "/mnt/c/temp/shot.png" ∧
    backslashesToSlashes (windowsPathOf "/root/proj" (some "/mnt/c/temp") "shot.png") ≠
      successPathOf "/root/proj" (some "/mnt/c/temp") "shot.png" := by
  decide

/-! ## Injection claim -/

/-- The empty list is a prefix of everything. -/
theorem nilIsPrefixOf (l : List Char) : List.isPrefixOf ([] : List Char) l = true := by
  cases l <;> rfl

/-- A list is a prefix of itself extended on the right. -/
theorem isPrefixOf_append_self (l t : List Char) : List.isPrefixOf l (l ++ t) = true := by
  induction l with
  | nil => exact nilIsPrefixOf t
  | cons c r ih => simp [List.isPrefixOf, ih]

/-- A prefix occurs. -/
theorem occursIn_of_isPrefixOf (pat l : List Char) (h : List.isPrefixOf pat l = true) :
    occursIn pat l = true := by
  cases l with
  | nil =>
    cases pat with
    | nil => rfl
    | cons c r => simp [List.isPrefixOf] at h
  | cons c rest => simp [occursIn, h]

/-- A pattern occurs in `pre ++ (pat ++ post)`. -/
theorem occursIn_middle (pre pat post : List Char) :
    occursIn pat (pre ++ (pat ++ post)) = true := by
  induction pre with
  | nil => exact occursIn_of_isPrefixOf _ _ (isPrefixOf_append_self pat post)
  | cons c r ih => simp [occursIn, ih]

/-- String level: a string interpolated between two fixed pieces occurs
verbatim in the result. -/
theorem strContains_middle (pre pat post : String) :
    strContains (pre ++ (pat ++ post)) pat = true := by
  show occursIn pat.data (pre ++ (pat ++ post)).data = true
  have hdata : (pre ++ (pat ++ post)).data = pre.data ++ (pat.data ++ post.data) := by
    cases pre; cases pat; cases post; rfl
  rw [hdata]
  exact occursIn_middle _ _ _

/-- C2: the escaping is *not* sufficient for the bridge's quoting
rules.  Quote-doubling leaves PowerShell's `$(...)` subexpression
syntax intact and the caller's text is interpolated verbatim into the
double-quoted `-like` pattern of the search fragment; the `monitor`
value is interpolated with no escaping at all into single-quoted
contexts; and the backslash-doubling applied to the destination path
does not neutralise a single quote, which terminates the single-quoted
`$bitmap.Save('…')` argument.  Each conjunct evaluates the code's own
escaping/formatting at an injection-carrying input. -/
theorem C2_injection_evidence :
    escapeDoubleQuotes "$(Start-Process calc)" = "$(Start-Process calc)" ∧
    strContains (escapeDoubleQuotes "$(Start-Process calc)") "$(" = true ∧
    (∀ escT psProv idx, strContains (titleSearchFragment escT psProv idx) escT = true) ∧
    (∀ m, strContains (monitorSelectFragment m) m = true) ∧
    strContains (escapeBackslashes "C:\\shots\\a\x27b.png") "\x27" = true := by
  refine ⟨by decide, by decide, ?_, ?_, by decide⟩
  · intro escT psProv idx
    unfold titleSearchFragment
    exact strContains_middle _ escT _
  · intro m
    unfold monitorSelectFragment
    exact strContains_middle _ m _

end WSLSnapIt
